import Mathlib

/-!
Shallow embedding of the training-dashboard graph engine
(`training_dashboard/js/app.js`, `training_dashboard/js/nodes.js`,
`DashboardSample/dashboard/js/drag.js`) and proofs about it.

Conventions:
- JavaScript objects used as string-keyed dictionaries are embedded as
  functions `String → Option α` (absent key = `none`).
- The four runtime node statuses are the enumeration `Status`.
- Numeric values are rationals; `Math.round` is `⌊q + 1/2⌋`.
- Fields that may be `null`/`undefined` in JS are `Option` fields.
-/

/-- The four node statuses of the runtime-status document. -/
inductive Status where
  | idle
  | running
  | done
  | fail
deriving DecidableEq, Repr, Fintype

/-- One entry of a runtime node map: `{status, message?}`. The `status`
field is optional because the code reads it as `node?.status || "idle"`. -/
structure NodeStatusView where
  status : Option Status
  message : Option String
deriving DecidableEq

/-- A JS object used as a dictionary keyed by node id. -/
def JsMap (α : Type) : Type := String → Option α

/-- The empty dictionary (`{}`). -/
def JsMap.empty {α : Type} : JsMap α := fun _ => none

/-- A directed connection `{from, to}` between two node ids
(field `from` is a keyword-ish name; we use `src`/`dst`). -/
structure Connection where
  src : String
  dst : String

/-- Embedding of the status lookup `runtimeNodes[id]?.status || "idle"`
performed by `deriveConnectionState` and `applyNodeStatuses`
(app.js lines 1037-1038 and 327-328). -/
def statusLookup (runtimeNodes : JsMap NodeStatusView) (id : String) : Status :=
  ((runtimeNodes id).bind (fun n => n.status)).getD Status.idle

/-- Embedding of `deriveConnectionState` (app.js lines 1032-1054):
null map → idle; then fail / running / done-done / one-done / idle
precedence over the two endpoint statuses. -/
def deriveConnectionState (connection : Connection)
    (runtimeNodes : Option (JsMap NodeStatusView)) : Status :=
  match runtimeNodes with
  | none => Status.idle
  | some m =>
    let sourceStatus := statusLookup m connection.src
    let targetStatus := statusLookup m connection.dst
    let statuses := [sourceStatus, targetStatus]
    if statuses.contains Status.fail then Status.fail
    else if statuses.contains Status.running then Status.running
    else if sourceStatus = Status.done ∧ targetStatus = Status.done then Status.done
    else if statuses.contains Status.done then Status.running
    else Status.idle

/-- Flow-state precedence written from the specification text: any endpoint
fail → fail; else any endpoint running → running; else both done → done;
else exactly one done → running; else idle. -/
def specFlowState (s t : Status) : Status :=
  if s = Status.fail ∨ t = Status.fail then Status.fail
  else if s = Status.running ∨ t = Status.running then Status.running
  else if s = Status.done ∧ t = Status.done then Status.done
  else if (s = Status.done ∧ t ≠ Status.done) ∨ (s ≠ Status.done ∧ t = Status.done)
    then Status.running
  else Status.idle

/-- Endpoint status as the specification describes it: an endpoint absent
from the status map counts as idle (a null map leaves every endpoint
absent). -/
def specEndpointStatus (runtimeNodes : Option (JsMap NodeStatusView))
    (id : String) : Status :=
  match runtimeNodes with
  | none => Status.idle
  | some m => statusLookup m id

/-- Auxiliary: the code-side combination of two endpoint statuses agrees
with the specification-side precedence on every pair of statuses. -/
theorem specFlowState_cases (s t : Status) :
    (if [s, t].contains Status.fail then Status.fail
      else if [s, t].contains Status.running then Status.running
      else if s = Status.done ∧ t = Status.done then Status.done
      else if [s, t].contains Status.done then Status.running
      else Status.idle) = specFlowState s t := by
  revert s t
  decide

/-- C1: for every connection and every status map (including the null map)
the derived connection flow-state follows exactly the specified precedence,
with endpoints absent from the map counting as idle. -/
theorem deriveConnectionState_spec (connection : Connection)
    (runtimeNodes : Option (JsMap NodeStatusView)) :
    deriveConnectionState connection runtimeNodes =
      specFlowState (specEndpointStatus runtimeNodes connection.src)
        (specEndpointStatus runtimeNodes connection.dst) := by
  cases runtimeNodes with
  | none => simp [deriveConnectionState, specEndpointStatus, specFlowState]
  | some m =>
    simp only [deriveConnectionState, specEndpointStatus]
    exact specFlowState_cases (statusLookup m connection.src)
      (statusLookup m connection.dst)

/-- The `state.runtime` object as far as the overlay is concerned: it may be
null, and its `nodes` field may be absent or not an object. -/
structure RuntimeState where
  nodes : Option (JsMap NodeStatusView)

/-- Embedding of the base-map selection in `getEffectiveRuntimeNodes`
(app.js lines 149-152): `state.runtime?.nodes` when it is an object, else
the empty map. -/
def baseRuntimeNodes (runtime : Option RuntimeState) : JsMap NodeStatusView :=
  match runtime with
  | none => JsMap.empty
  | some r =>
    match r.nodes with
    | none => JsMap.empty
    | some m => m

/-- Embedding of `getEffectiveRuntimeNodes` (app.js lines 148-160): return
the base map when the live patch is null, otherwise the object spread
`{...baseNodes, ...liveNodes}` (live entries win on conflict). -/
def getEffectiveRuntimeNodes (runtime : Option RuntimeState)
    (trainerLiveNodes : Option (JsMap NodeStatusView)) : JsMap NodeStatusView :=
  let baseNodes := baseRuntimeNodes runtime
  match trainerLiveNodes with
  | none => baseNodes
  | some liveNodes => fun k =>
      match liveNodes k with
      | some v => some v
      | none => baseNodes k

/-- Overlay written from the specification text: start from the base map,
then overlay every key present in the live patch, live entries winning. -/
def specOverlay (base live : JsMap NodeStatusView) : JsMap NodeStatusView :=
  fun k =>
    match live k with
    | some v => some v
    | none => base k

/-- C2: the effective status map is the runtime node map (empty when the
runtime or its node map is null) overlaid with the live patch, the live
entry winning for every key present in the patch; a node id absent from
both yields the default displayed status idle; and recomputing with
identical inputs yields an identical map. -/
theorem getEffectiveRuntimeNodes_spec (runtime : Option RuntimeState)
    (trainerLiveNodes : Option (JsMap NodeStatusView)) (k : String) :
    (getEffectiveRuntimeNodes runtime trainerLiveNodes k =
        specOverlay (baseRuntimeNodes runtime)
          (trainerLiveNodes.getD JsMap.empty) k) ∧
    (∀ liveNodes v, trainerLiveNodes = some liveNodes → liveNodes k = some v →
        getEffectiveRuntimeNodes runtime trainerLiveNodes k = some v) ∧
    (baseRuntimeNodes runtime k = none →
        (trainerLiveNodes.getD JsMap.empty) k = none →
        statusLookup (getEffectiveRuntimeNodes runtime trainerLiveNodes) k =
          Status.idle) ∧
    getEffectiveRuntimeNodes runtime trainerLiveNodes =
      getEffectiveRuntimeNodes runtime trainerLiveNodes := by
  refine ⟨?_, ?_, ?_, rfl⟩
  · cases trainerLiveNodes with
    | none =>
      simp only [getEffectiveRuntimeNodes, specOverlay, Option.getD, JsMap.empty]
    | some liveNodes =>
      simp only [getEffectiveRuntimeNodes, specOverlay, Option.getD]
  · intro liveNodes v hlive hk
    subst hlive
    simp only [getEffectiveRuntimeNodes, hk]
  · intro hbase hlivek
    cases trainerLiveNodes with
    | none =>
      simp only [getEffectiveRuntimeNodes, statusLookup, hbase, Option.bind,
        Option.getD]
    | some liveNodes =>
      simp only [Option.getD] at hlivek
      simp only [getEffectiveRuntimeNodes, statusLookup, hlivek, hbase,
        Option.bind, Option.getD]

/-- Concrete witness data for the overlay theorem: a runtime whose node map
sets node n1 to done, and a live patch overriding n1 to running. -/
def exRuntime : RuntimeState :=
  ⟨some (fun k =>
    if k = "n1" then some ⟨some Status.done, none⟩ else none)⟩

/-- Concrete live patch used by the overlay witness. -/
def exLivePatch : JsMap NodeStatusView :=
  fun k => if k = "n1" then some ⟨some Status.running, none⟩ else none

/-- Witness for C2 at concrete inputs: the live patch entry for n1 wins over
the runtime entry, and a key absent from both displays as idle. -/
theorem getEffectiveRuntimeNodes_spec_witness :
    getEffectiveRuntimeNodes (some exRuntime) (some exLivePatch) "n1" =
        some ⟨some Status.running, none⟩ ∧
    statusLookup (getEffectiveRuntimeNodes (some exRuntime) (some exLivePatch))
        "n2" = Status.idle := by
  constructor
  · exact (getEffectiveRuntimeNodes_spec (some exRuntime) (some exLivePatch)
      "n1").2.1 exLivePatch ⟨some Status.running, none⟩ rfl (by
        simp only [exLivePatch]
        decide)
  · exact (getEffectiveRuntimeNodes_spec (some exRuntime) (some exLivePatch)
      "n2").2.2.1 (by
        simp only [baseRuntimeNodes, exRuntime]
        decide)
      (by
        simp only [Option.getD, exLivePatch]
        decide)

/-- Zoom bound `MIN_ZOOM` (drag.js line 1). -/
def MIN_ZOOM : ℚ := 1/2

/-- Zoom bound `MAX_ZOOM` (drag.js line 2). -/
def MAX_ZOOM : ℚ := 19/10

/-- Embedding of `clamp(value, min, max) = Math.max(min, Math.min(max, value))`
(drag.js lines 4-6, duplicated at app.js lines 81-83). -/
def clamp (value lo hi : ℚ) : ℚ := max lo (min hi value)

/-- The viewport transform `{x, y, scale}`. -/
structure Transform where
  x : ℚ
  y : ℚ
  scale : ℚ
deriving DecidableEq

/-- JS `Math.round`: round half toward positive infinity. -/
def jsRound (q : ℚ) : ℤ := ⌊q + 1/2⌋

/-- Embedding of `toWorldPoint` (drag.js lines 20-26) on canvas-local
coordinates `localX = clientX - rect.left`, `localY = clientY - rect.top`. -/
def toWorldPoint (t : Transform) (localX localY : ℚ) : ℚ × ℚ :=
  ((localX - t.x) / t.scale, (localY - t.y) / t.scale)

/-- Embedding of the wheel handler's transform computation (drag.js lines
132-158): world point under the cursor, rescale clamped to the zoom range,
then reposition so the world point stays under the cursor. The `factor`
argument stands for `Math.exp(-event.deltaY * 0.0014)`. -/
def wheelZoom (current : Transform) (localX localY factor : ℚ) : Transform :=
  let worldX := (localX - current.x) / current.scale
  let worldY := (localY - current.y) / current.scale
  let nextScale := clamp (current.scale * factor) MIN_ZOOM MAX_ZOOM
  ⟨localX - worldX * nextScale, localY - worldY * nextScale, nextScale⟩

/-- C3: wheel zoom is anchor-preserving — for a transform with scale in the
zoom range, the world point under the cursor before the zoom equals the
world point under the same cursor position after it, including when the new
scale is clamped. -/
theorem wheelZoom_anchor (t : Transform) (localX localY factor : ℚ)
    (hlo : MIN_ZOOM ≤ t.scale) (hhi : t.scale ≤ MAX_ZOOM) :
    toWorldPoint (wheelZoom t localX localY factor) localX localY =
      toWorldPoint t localX localY := by
  have hmin : (0:ℚ) < MIN_ZOOM := by norm_num [MIN_ZOOM]
  have hns : MIN_ZOOM ≤ clamp (t.scale * factor) MIN_ZOOM MAX_ZOOM :=
    le_max_left _ _
  have hns0 : clamp (t.scale * factor) MIN_ZOOM MAX_ZOOM ≠ 0 :=
    ne_of_gt (lt_of_lt_of_le hmin hns)
  simp only [toWorldPoint, wheelZoom, Prod.mk.injEq]
  refine ⟨?_, ?_⟩
  · rw [sub_sub_cancel, mul_div_assoc, div_self hns0, mul_one]
  · rw [sub_sub_cancel, mul_div_assoc, div_self hns0, mul_one]

/-- Witness for C3 at the initial transform with a factor large enough that
the new scale is clamped to `MAX_ZOOM`. -/
theorem wheelZoom_anchor_witness :
    toWorldPoint (wheelZoom ⟨70, 50, 9/10⟩ 200 100 3) 200 100 =
      toWorldPoint ⟨70, 50, 9/10⟩ 200 100 :=
  wheelZoom_anchor ⟨70, 50, 9/10⟩ 200 100 3 (by norm_num [MIN_ZOOM])
    (by norm_num [MAX_ZOOM])

/-- Node card dimensions (nodes.js lines 1-4). -/
def NODE_WIDTH : ℚ := 220

/-- Node card height (nodes.js lines 1-4). -/
def NODE_HEIGHT : ℚ := 104

/-- A node's mutable on-canvas position. -/
structure GNode where
  x : ℚ
  y : ℚ
deriving DecidableEq

/-- Embedding of the position update performed by `onNodeDrag`
(app.js lines 354-358): clamp the raw graph-space target to the canvas
bounds and round to whole pixels. -/
def onNodeDragUpdate (canvasW canvasH : ℤ) (x y : ℚ) : GNode :=
  let maxX : ℚ := (canvasW : ℚ) - NODE_WIDTH
  let maxY : ℚ := (canvasH : ℚ) - NODE_HEIGHT
  ⟨(jsRound (clamp x 0 maxX) : ℚ), (jsRound (clamp y 0 maxY) : ℚ)⟩

/-- Auxiliary: clamping to `[0, m]` with `0 ≤ m` lands in `[0, m]`. -/
theorem clamp_mem (v m : ℚ) (hm : 0 ≤ m) :
    0 ≤ clamp v 0 m ∧ clamp v 0 m ≤ m :=
  ⟨le_max_left _ _, max_le hm (min_le_left _ _)⟩

/-- Auxiliary: rounding a rational lying in `[0, mq]` for an integer-valued
bound `mq` stays in `[0, mq]`, read back in the rationals. -/
theorem jsRound_memQ (v mq : ℚ) (m : ℤ) (hmq : mq = (m : ℚ)) (hv0 : 0 ≤ v)
    (hvm : v ≤ mq) :
    0 ≤ (jsRound v : ℚ) ∧ (jsRound v : ℚ) ≤ mq := by
  subst hmq
  have h0 : 0 ≤ jsRound v := Int.le_floor.mpr (by push_cast; linarith)
  have h1 : jsRound v ≤ ⌊(m : ℚ) + 1/2⌋ := Int.floor_le_floor (by linarith)
  have h2 : ⌊(m : ℚ) + 1/2⌋ = m + ⌊(1/2 : ℚ)⌋ := Int.floor_int_add m (1/2)
  have h3 : ⌊(1/2 : ℚ)⌋ = 0 := by norm_num
  have h4 : jsRound v ≤ m := by omega
  exact ⟨by exact_mod_cast h0, by exact_mod_cast h4⟩

/-- C5: for canvas dimensions at least as large as the node card, every
node-drag position update stores a position inside
`[0, canvasW - nodeWidth] × [0, canvasH - nodeHeight]`, whatever the raw
pointer-derived target position was. -/
theorem onNodeDragUpdate_bounds (canvasW canvasH : ℤ) (x y : ℚ)
    (hW : 220 ≤ canvasW) (hH : 104 ≤ canvasH) :
    0 ≤ (onNodeDragUpdate canvasW canvasH x y).x ∧
    (onNodeDragUpdate canvasW canvasH x y).x ≤ (canvasW : ℚ) - NODE_WIDTH ∧
    0 ≤ (onNodeDragUpdate canvasW canvasH x y).y ∧
    (onNodeDragUpdate canvasW canvasH x y).y ≤ (canvasH : ℚ) - NODE_HEIGHT := by
  have hmx : ((canvasW : ℚ) - NODE_WIDTH) = ((canvasW - 220 : ℤ) : ℚ) := by
    push_cast [NODE_WIDTH]; ring
  have hmy : ((canvasH : ℚ) - NODE_HEIGHT) = ((canvasH - 104 : ℤ) : ℚ) := by
    push_cast [NODE_HEIGHT]; ring
  have hmx0 : (0:ℚ) ≤ (canvasW : ℚ) - NODE_WIDTH := by
    rw [hmx]; exact_mod_cast Int.sub_nonneg.mpr hW
  have hmy0 : (0:ℚ) ≤ (canvasH : ℚ) - NODE_HEIGHT := by
    rw [hmy]; exact_mod_cast Int.sub_nonneg.mpr hH
  have hcx := clamp_mem x ((canvasW : ℚ) - NODE_WIDTH) hmx0
  have hcy := clamp_mem y ((canvasH : ℚ) - NODE_HEIGHT) hmy0
  have hrx := jsRound_memQ (clamp x 0 ((canvasW : ℚ) - NODE_WIDTH))
    ((canvasW : ℚ) - NODE_WIDTH) (canvasW - 220) hmx hcx.1 hcx.2
  have hry := jsRound_memQ (clamp y 0 ((canvasH : ℚ) - NODE_HEIGHT))
    ((canvasH : ℚ) - NODE_HEIGHT) (canvasH - 104) hmy hcy.1 hcy.2
  exact ⟨by simpa [onNodeDragUpdate] using hrx.1,
    by simpa [onNodeDragUpdate] using hrx.2,
    by simpa [onNodeDragUpdate] using hry.1,
    by simpa [onNodeDragUpdate] using hry.2⟩

/-- Witness for C5 on an 800×400 canvas with an off-canvas raw target. -/
theorem onNodeDragUpdate_bounds_witness :
    0 ≤ (onNodeDragUpdate 800 400 (-50) 1000000).x ∧
    (onNodeDragUpdate 800 400 (-50) 1000000).x ≤ (800 : ℚ) - NODE_WIDTH ∧
    0 ≤ (onNodeDragUpdate 800 400 (-50) 1000000).y ∧
    (onNodeDragUpdate 800 400 (-50) 1000000).y ≤ (400 : ℚ) - NODE_HEIGHT :=
  onNodeDragUpdate_bounds 800 400 (-50) 1000000 (by norm_num) (by norm_num)

/-- C9: every node-drag position update stores integer coordinates — the
clamped graph-space target is rounded to the nearest whole pixel (ties
rounded up, as JS `Math.round` does) before being stored, for any raw
fractional target position. -/
theorem onNodeDragUpdate_integral (canvasW canvasH : ℤ) (x y : ℚ) :
    ∃ nx ny : ℤ,
      (onNodeDragUpdate canvasW canvasH x y).x = (nx : ℚ) ∧
      (onNodeDragUpdate canvasW canvasH x y).y = (ny : ℚ) ∧
      |(onNodeDragUpdate canvasW canvasH x y).x -
          clamp x 0 ((canvasW : ℚ) - NODE_WIDTH)| ≤ 1/2 ∧
      |(onNodeDragUpdate canvasW canvasH x y).y -
          clamp y 0 ((canvasH : ℚ) - NODE_HEIGHT)| ≤ 1/2 := by
  refine ⟨jsRound (clamp x 0 ((canvasW : ℚ) - NODE_WIDTH)),
    jsRound (clamp y 0 ((canvasH : ℚ) - NODE_HEIGHT)), rfl, rfl, ?_, ?_⟩
  all_goals
    simp only [onNodeDragUpdate, jsRound]
    rw [abs_le]
    constructor
  · have h := Int.lt_floor_add_one (clamp x 0 ((canvasW : ℚ) - NODE_WIDTH) + 1/2)
    push_cast at h
    linarith
  · have h := Int.floor_le (clamp x 0 ((canvasW : ℚ) - NODE_WIDTH) + 1/2)
    linarith
  · have h := Int.lt_floor_add_one (clamp y 0 ((canvasH : ℚ) - NODE_HEIGHT) + 1/2)
    push_cast at h
    linarith
  · have h := Int.floor_le (clamp y 0 ((canvasH : ℚ) - NODE_HEIGHT) + 1/2)
    linarith

/-- A node-drag session (drag.js lines 38-43). -/
structure NodeSession where
  pointerId : ℕ
  nodeId : String
  offsetX : ℚ
  offsetY : ℚ
deriving DecidableEq

/-- A pan-drag session (drag.js lines 52-59). -/
structure PanSession where
  pointerId : ℕ
  startX : ℚ
  startY : ℚ
  originX : ℚ
  originY : ℚ
deriving DecidableEq

/-- State of the interaction layer: the two drag-session slots of
`setupInteractions` (drag.js lines 17-18), the viewport transform and the
active view's node positions held by app.js, the view canvas size, and the
canvas bounding rectangle used by `toWorldPoint`. -/
structure DashState where
  nodeDrag : Option NodeSession
  panDrag : Option PanSession
  transform : Transform
  nodes : List (String × GNode)
  canvasW : ℤ
  canvasH : ℤ
  rectLeft : ℚ
  rectTop : ℚ
deriving DecidableEq

/-- Replace the stored position of node `id` (app.js mutates `node.x`,
`node.y` on the node object held in the node map). -/
def setNode (nodes : List (String × GNode)) (id : String) (n : GNode) :
    List (String × GNode) :=
  nodes.map (fun p => if p.1 = id then (p.1, n) else p)

/-- Embedding of the `onNodeDrag` callback (app.js lines 346-372): look up
the node, and when it exists store the clamped, rounded position. -/
def onNodeDragCallback (s : DashState) (nodeId : String) (x y : ℚ) :
    DashState :=
  match List.lookup nodeId s.nodes with
  | none => s
  | some _ =>
    let next := onNodeDragUpdate s.canvasW s.canvasH x y
    { s with nodes := setNode s.nodes nodeId next }

/-- Embedding of `beginNodeDrag` (drag.js lines 28-49): missing node id is a
no-op; otherwise record pointer id, node id and grab offset in world
coordinates. -/
def beginNodeDrag (s : DashState) (pointerId : ℕ) (nodeId : String)
    (clientX clientY : ℚ) : DashState :=
  match List.lookup nodeId s.nodes with
  | none => s
  | some node =>
    let pw := toWorldPoint s.transform (clientX - s.rectLeft) (clientY - s.rectTop)
    let session : NodeSession := ⟨pointerId, nodeId, pw.1 - node.x, pw.2 - node.y⟩
    { s with nodeDrag := some session }

/-- Embedding of `beginPanDrag` (drag.js lines 51-62). -/
def beginPanDrag (s : DashState) (pointerId : ℕ) (clientX clientY : ℚ) :
    DashState :=
  let session : PanSession := ⟨pointerId, clientX, clientY, s.transform.x, s.transform.y⟩
  { s with panDrag := some session }

/-- Embedding of `endPointerAction` (drag.js lines 64-85): clear whichever
sessions belong to this pointer id. -/
def endPointerAction (s : DashState) (pointerId : ℕ) : DashState :=
  let s1 :=
    match s.nodeDrag with
    | some d => if d.pointerId = pointerId then { s with nodeDrag := none } else s
    | none => s
  match s1.panDrag with
  | some p =>
    if p.pointerId = pointerId then { s1 with panDrag := none } else s1
  | none => s1

/-- Embedding of the pan half of the pointermove handler (drag.js lines
115-126). -/
def panMoveStep (s : DashState) (pointerId : ℕ) (clientX clientY : ℚ) :
    DashState :=
  match s.panDrag with
  | some p =>
    if p.pointerId = pointerId then
      let next : Transform :=
        ⟨p.originX + (clientX - p.startX), p.originY + (clientY - p.startY), s.transform.scale⟩
      { s with transform := next }
    else s
  | none => s

/-- Embedding of the pointermove handler (drag.js lines 103-127): a matching
node-drag session moves its node through `onNodeDrag`; otherwise a matching
pan session pans the transform. -/
def pointermoveStep (s : DashState) (pointerId : ℕ) (clientX clientY : ℚ) :
    DashState :=
  match s.nodeDrag with
  | some d =>
    if d.pointerId = pointerId then
      let pw := toWorldPoint s.transform (clientX - s.rectLeft) (clientY - s.rectTop)
      onNodeDragCallback s d.nodeId (pw.1 - d.offsetX) (pw.2 - d.offsetY)
    else panMoveStep s pointerId clientX clientY
  | none => panMoveStep s pointerId clientX clientY

/-- Pointer and wheel events fed to the interaction layer. `primaryOrTouch`
models the guard `event.button !== 0 && event.pointerType !== "touch"`;
`targetNodeId` models `event.target.closest(".node-card")`; the wheel
`factor` stands for `Math.exp(-event.deltaY * 0.0014)`; `switchView` is the
tab-click handler resetting the transform (app.js line 230). The `pointerup`
event also stands for pointercancel and lostpointercapture, which run the
same `endPointerAction` handler. -/
inductive PEvent where
  | pointerdown (pointerId : ℕ) (clientX clientY : ℚ) (primaryOrTouch : Bool)
      (targetNodeId : Option String)
  | pointermove (pointerId : ℕ) (clientX clientY : ℚ)
  | pointerup (pointerId : ℕ)
  | wheel (clientX clientY : ℚ) (factor : ℚ)
  | switchView

/-- The fixed default transform (app.js lines 37-41 and 230). -/
def initialTransform : Transform := ⟨70, 50, 9/10⟩

/-- One step of the interaction layer: dispatch an event to the embedded
handler. -/
def step (s : DashState) (e : PEvent) : DashState :=
  match e with
  | PEvent.pointerdown pointerId clientX clientY primaryOrTouch targetNodeId =>
    if primaryOrTouch then
      match targetNodeId with
      | some nodeId => beginNodeDrag s pointerId nodeId clientX clientY
      | none => beginPanDrag s pointerId clientX clientY
    else s
  | PEvent.pointermove pointerId clientX clientY =>
    pointermoveStep s pointerId clientX clientY
  | PEvent.pointerup pointerId => endPointerAction s pointerId
  | PEvent.wheel clientX clientY factor =>
    let next := wheelZoom s.transform (clientX - s.rectLeft) (clientY - s.rectTop) factor
    { s with transform := next }
  | PEvent.switchView => { s with transform := initialTransform }

/-- Run the interaction layer over a list of events. -/
def runEvents (s : DashState) (events : List PEvent) : DashState :=
  events.foldl step s

/-- The application state right after initialization: no drag sessions, the
fixed default transform, and whatever nodes, canvas and bounding rectangle
the loaded view supplies. -/
def initState (nodes : List (String × GNode)) (canvasW canvasH : ℤ)
    (rectLeft rectTop : ℚ) : DashState :=
  ⟨none, none, initialTransform, nodes, canvasW, canvasH, rectLeft, rectTop⟩

/-- Auxiliary: the zoom-range predicate on a scale value. -/
def scaleInRange (scale : ℚ) : Prop := MIN_ZOOM ≤ scale ∧ scale ≤ MAX_ZOOM

/-- Auxiliary: no single event moves the scale out of the zoom range. -/
theorem step_preserves_scale (s : DashState) (e : PEvent)
    (h : scaleInRange s.transform.scale) :
    scaleInRange (step s e).transform.scale := by
  cases e with
  | pointerdown pointerId clientX clientY primaryOrTouch targetNodeId =>
    by_cases hp : primaryOrTouch
    · cases targetNodeId with
      | some nodeId =>
        simp only [step, hp, if_true, beginNodeDrag]
        cases List.lookup nodeId s.nodes with
        | none => exact h
        | some node => exact h
      | none =>
        simpa only [step, hp, if_true, beginPanDrag] using h
    · simpa only [step, hp, if_false] using h
  | pointermove pointerId clientX clientY =>
    simp only [step, pointermoveStep]
    cases hd : s.nodeDrag with
    | some d =>
      by_cases hpid : d.pointerId = pointerId
      · simp only [hpid, if_true, onNodeDragCallback]
        cases List.lookup d.nodeId s.nodes with
        | none => exact h
        | some node => exact h
      · simp only [hpid, if_false, panMoveStep]
        cases hp : s.panDrag with
        | some p =>
          by_cases hq : p.pointerId = pointerId
          · simpa only [hq, if_true] using h
          · simpa only [hq, if_false] using h
        | none => exact h
    | none =>
      simp only [panMoveStep]
      cases hp : s.panDrag with
      | some p =>
        by_cases hq : p.pointerId = pointerId
        · simpa only [hq, if_true] using h
        · simpa only [hq, if_false] using h
      | none => exact h
  | pointerup pointerId =>
    simp only [step, endPointerAction]
    cases s.nodeDrag with
    | some d =>
      by_cases hpid : d.pointerId = pointerId
      · simp only [hpid, if_true]
        cases s.panDrag with
        | some p =>
          by_cases hq : p.pointerId = pointerId
          · simpa only [hq, if_true] using h
          · simpa only [hq, if_false] using h
        | none => exact h
      · simp only [hpid, if_false]
        cases s.panDrag with
        | some p =>
          by_cases hq : p.pointerId = pointerId
          · simpa only [hq, if_true] using h
          · simpa only [hq, if_false] using h
        | none => exact h
    | none =>
      cases s.panDrag with
      | some p =>
        by_cases hq : p.pointerId = pointerId
        · simpa only [hq, if_true] using h
        · simpa only [hq, if_false] using h
      | none => exact h
  | wheel clientX clientY factor =>
    constructor
    · exact le_max_left _ _
    · exact max_le (by norm_num [MIN_ZOOM, MAX_ZOOM]) (min_le_left _ _)
  | switchView =>
    constructor
    · norm_num [step, initialTransform, MIN_ZOOM]
    · norm_num [step, initialTransform, MAX_ZOOM]

/-- Auxiliary: the scale invariant survives any event list. -/
theorem runEvents_preserves_scale (s : DashState) (events : List PEvent)
    (h : scaleInRange s.transform.scale) :
    scaleInRange (runEvents s events).transform.scale := by
  induction events generalizing s with
  | nil => exact h
  | cons e rest ih => exact ih (step s e) (step_preserves_scale s e h)

/-- C4: starting from the initial transform (scale 0.9), every sequence of
pointer, wheel and view-switch events keeps the scale inside
`[MIN_ZOOM, MAX_ZOOM] = [0.5, 1.9]`: pans leave the scale unchanged, wheel
zooms clamp it into the range, and view switches reset it to 0.9. -/
theorem scale_always_in_range (nodes : List (String × GNode))
    (canvasW canvasH : ℤ) (rectLeft rectTop : ℚ) (events : List PEvent) :
    MIN_ZOOM ≤
        (runEvents (initState nodes canvasW canvasH rectLeft rectTop)
          events).transform.scale ∧
      (runEvents (initState nodes canvasW canvasH rectLeft rectTop)
          events).transform.scale ≤ MAX_ZOOM :=
  runEvents_preserves_scale _ events
    (by constructor <;> norm_num [initState, initialTransform, MIN_ZOOM, MAX_ZOOM])

/-- Concrete two-node application state used to exercise concurrent node
drags: n1 at (10,10), n2 at (100,100), 800×400 canvas, canvas rectangle at
the page origin. -/
def twoNodeState : DashState :=
  initState [("n1", ⟨10, 10⟩), ("n2", ⟨100, 100⟩)] 800 400 0 0

/-- C8 counterexample: pointer 1 starts dragging n1; without interference a
pointer-1 move would reposition n1, but once pointer 2 starts dragging n2
the same pointer-1 move leaves n1 untouched, because the single `nodeDrag`
slot now holds pointer 2's session on n2. -/
theorem concurrent_drag_counterexample :
    List.lookup "n1" (runEvents twoNodeState
        [PEvent.pointerdown 1 100 100 true (some "n1"),
          PEvent.pointerdown 2 200 200 true (some "n2"),
          PEvent.pointermove 1 150 130]).nodes = some ⟨10, 10⟩ ∧
    List.lookup "n1" (runEvents twoNodeState
        [PEvent.pointerdown 1 100 100 true (some "n1"),
          PEvent.pointermove 1 150 130]).nodes ≠ some ⟨10, 10⟩ ∧
    (runEvents twoNodeState
        [PEvent.pointerdown 1 100 100 true (some "n1"),
          PEvent.pointerdown 2 200 200 true (some "n2")]).nodeDrag.map
        (fun d => (d.pointerId, d.nodeId)) = some (2, "n2") := by
  refine ⟨by decide, ?_, by decide⟩
  simp only [runEvents, List.foldl, twoNodeState, initState, step,
    beginNodeDrag, pointermoveStep, onNodeDragCallback, onNodeDragUpdate,
    setNode, toWorldPoint, initialTransform, List.lookup, jsRound, clamp,
    NODE_WIDTH, NODE_HEIGHT]
  norm_num [min_def, max_def]

/-- C8 amended: a second node-drag pointerdown by a distinct pointer id
replaces the current node-drag session rather than coexisting with it —
after pointer pB grabs node nB, the single session belongs to pB and nB,
a pointermove by the first pointer id changes no node position (with no pan
session active), and a pointerup of the first pointer id leaves pB's
session in place. -/
theorem second_node_drag_replaces (s : DashState) (dA : NodeSession)
    (pB : ℕ) (nB : String) (node : GNode) (cx cy mx my : ℚ)
    (hA : s.nodeDrag = some dA)
    (hpan : s.panDrag = none)
    (hnode : List.lookup nB s.nodes = some node)
    (hne : dA.pointerId ≠ pB) :
    (∃ offX offY,
      (step s (PEvent.pointerdown pB cx cy true (some nB))).nodeDrag =
        some ⟨pB, nB, offX, offY⟩) ∧
    (pointermoveStep (step s (PEvent.pointerdown pB cx cy true (some nB)))
        dA.pointerId mx my).nodes =
      (step s (PEvent.pointerdown pB cx cy true (some nB))).nodes ∧
    (endPointerAction (step s (PEvent.pointerdown pB cx cy true (some nB)))
        dA.pointerId).nodeDrag =
      (step s (PEvent.pointerdown pB cx cy true (some nB))).nodeDrag := by
  have hstep : step s (PEvent.pointerdown pB cx cy true (some nB)) =
      { s with nodeDrag := some ⟨pB, nB,
          (toWorldPoint s.transform (cx - s.rectLeft) (cy - s.rectTop)).1 - node.x,
          (toWorldPoint s.transform (cx - s.rectLeft) (cy - s.rectTop)).2 - node.y⟩ } := by
    simp only [step, if_true, beginNodeDrag, hnode]
  rw [hstep]
  refine ⟨⟨_, _, rfl⟩, ?_, ?_⟩
  · simp only [pointermoveStep]
    rw [if_neg (fun hcontra => hne hcontra.symm)]
    simp only [panMoveStep, hpan]
  · simp only [endPointerAction, hpan]
    rw [if_neg (fun hcontra => hne hcontra.symm)]

/-- A JS value as it can appear in a `val_loss` field. `typeof` is
"number" for `num`, `nan`, `inf` and `neginf`; only `num` passes
`Number.isFinite`. -/
inductive JsValue where
  | num (q : ℚ)
  | nan
  | inf
  | neginf
  | jsnull
  | undef
deriving DecidableEq

/-- The test `typeof value === "number" && Number.isFinite(value)` from
`finalValLoss` (app.js lines 704-705), returning the finite value when it
passes. -/
def finiteNumber (v : JsValue) : Option ℚ :=
  match v with
  | JsValue.num q => some q
  | _ => none

/-- One record of a loss series: `{epoch, train_loss, val_loss}`; only
`val_loss` is consumed by `finalValLoss`. -/
structure LossRecord where
  val_loss : JsValue
deriving DecidableEq

/-- A loss-series entry, which may itself be null (`item?.val_loss`). -/
def LossEntry : Type := Option LossRecord

/-- The value `item?.val_loss` filtered by the finiteness test. -/
def entryFiniteVal (e : LossEntry) : Option ℚ :=
  match e with
  | none => none
  | some r => finiteNumber r.val_loss

/-- Per-stream metrics object `{loss: [...]}`; `loss` may be absent or not
an array. -/
structure StreamMetrics where
  loss : Option (List LossEntry)

/-- One checklist item `{index, title, passed, detail?, hint?}`. -/
structure ChecklistItem where
  index : ℚ
  title : String
  passed : Bool
  detail : Option String
  hint : Option String
deriving DecidableEq

/-- A runtime-status document as consumed by the comparison and panel code:
`checklist` may be absent or not an array, `metrics` may be absent. -/
structure RuntimeDoc where
  checklist : Option (List ChecklistItem)
  metrics : Option (JsMap StreamMetrics)

/-- Embedding of `checklistPassedCount` (app.js lines 683-689): 0 when the
checklist is not an array, else the number of items with truthy `passed`.
No title filtering happens here. -/
def checklistPassedCount (runtimeState : Option RuntimeDoc) : ℕ :=
  match runtimeState with
  | none => 0
  | some r =>
    match r.checklist with
    | none => 0
    | some checklist => (checklist.filter (fun item => item.passed)).length

/-- Embedding of `checklistTotalCount` (app.js lines 691-694). -/
def checklistTotalCount (runtimeState : Option RuntimeDoc) : ℕ :=
  match runtimeState with
  | none => 0
  | some r =>
    match r.checklist with
    | none => 0
    | some checklist => checklist.length

/-- Embedding of the run-comparison pass delta
`checklistPassedCount(current) - checklistPassedCount(baseline)`
(app.js lines 750-752). -/
def passDelta (current baseline : Option RuntimeDoc) : ℤ :=
  (checklistPassedCount current : ℤ) - (checklistPassedCount baseline : ℤ)

/-- The series selection `runtimeState?.metrics?.[stream]?.loss` of
`finalValLoss` (app.js line 697), none when any link is missing or the
result is not an array. -/
def seriesOf (runtimeState : Option RuntimeDoc) (stream : String) :
    Option (List LossEntry) :=
  match runtimeState with
  | none => none
  | some r =>
    match r.metrics with
    | none => none
    | some ms =>
      match ms stream with
      | none => none
      | some sm => sm.loss

/-- The backward index loop of `finalValLoss` (app.js lines 702-708),
written as a scan over the reversed series: return the first entry from the
end whose `val_loss` is a finite number. -/
def lastFiniteScan : List LossEntry → Option ℚ
  | [] => none
  | e :: rest =>
    match entryFiniteVal e with
    | some v => some v
    | none => lastFiniteScan rest

/-- Embedding of `finalValLoss` (app.js lines 696-710): select the series,
return null when it is absent or empty, otherwise scan from the last index
backward for a finite `val_loss`. -/
def finalValLoss (runtimeState : Option RuntimeDoc) (stream : String) :
    Option ℚ :=
  match seriesOf runtimeState stream with
  | none => none
  | some series =>
    if series.isEmpty then none else lastFiniteScan series.reverse

/-- The scan described by the specification text: iterate the series from
the end and return the first finite `val_loss` found. -/
def lastFiniteValLossSpec (series : List LossEntry) : Option ℚ :=
  series.reverse.findSome? entryFiniteVal

/-- Auxiliary: the backward loop is `findSome?` over the given list. -/
theorem lastFiniteScan_eq_findSome (l : List LossEntry) :
    lastFiniteScan l = l.findSome? entryFiniteVal := by
  induction l with
  | nil => rfl
  | cons e rest ih =>
    simp only [lastFiniteScan, List.findSome?]
    cases entryFiniteVal e with
    | none => simpa using ih
    | some v => rfl

/-- Concrete runtime document whose patchtst loss series is
`[{val_loss: 0.5}, {val_loss: NaN}, {val_loss: null}]`. -/
def exLossDoc : Option RuntimeDoc :=
  some ⟨none, some (fun stream =>
    if stream = "patchtst" then
      some ⟨some [some ⟨JsValue.num (1/2)⟩, some ⟨JsValue.nan⟩,
        some ⟨JsValue.jsnull⟩]⟩
    else none)⟩

/-- C6: `finalValLoss` agrees with the backward scan the specification
describes — it returns the first finite `val_loss` found when iterating the
series from the end, returns null exactly when the series is absent or
contains no finite `val_loss` (so also when it is empty), and on the series
`[{val_loss: 0.5}, {val_loss: NaN}, {val_loss: null}]` it returns 0.5. -/
theorem finalValLoss_spec (runtimeState : Option RuntimeDoc) (stream : String) :
    (finalValLoss runtimeState stream =
        (seriesOf runtimeState stream).bind lastFiniteValLossSpec) ∧
    (finalValLoss runtimeState stream = none ↔
        seriesOf runtimeState stream = none ∨
          ∃ series, seriesOf runtimeState stream = some series ∧
            ∀ e ∈ series, entryFiniteVal e = none) ∧
    finalValLoss exLossDoc "patchtst" = some (1/2) := by
  have hmain : finalValLoss runtimeState stream =
      (seriesOf runtimeState stream).bind lastFiniteValLossSpec := by
    simp only [finalValLoss]
    cases seriesOf runtimeState stream with
    | none => rfl
    | some series =>
      simp only [Option.bind, lastFiniteValLossSpec]
      cases series with
      | nil => rfl
      | cons e rest =>
        simp only [List.isEmpty, if_false]
        exact lastFiniteScan_eq_findSome (e :: rest).reverse
  refine ⟨hmain, ?_, rfl⟩
  rw [hmain]
  cases hs : seriesOf runtimeState stream with
  | none => simp
  | some series =>
    simp only [Option.bind, lastFiniteValLossSpec, Option.some.injEq,
      reduceCtorEq, false_or]
    rw [List.findSome?_eq_none_iff]
    constructor
    · intro h
      exact ⟨series, rfl, fun e he => h e (List.mem_reverse.mpr he)⟩
    · rintro ⟨series2, hseries2, h⟩
      cases hseries2
      exact fun e he => h e (List.mem_reverse.mp he)

/-- The fixed required-title allow-list `REQUIRED_CHECKLIST_TITLES`
(app.js lines 1093-1101). -/
def REQUIRED_CHECKLIST_TITLES : List String :=
  ["Check trained checkpoints",
    "Check PatchTST scaler artifact",
    "Check TensorBoard logs",
    "Check final training configs",
    "Check backup bundle",
    "Run scoring smoke test for both streams",
    "Check split policy documentation"]

/-- Embedding of `normalizeChecklist` (app.js lines 1155-1162): non-array
input yields `[]`; otherwise sort a copy ascending by numeric index (JS
`sort` with comparator `Number(a.index) - Number(b.index)`, stable, modelled
by `mergeSort`) and keep only items whose title is in the allow-list. -/
def normalizeChecklist (checklist : Option (List ChecklistItem)) :
    List ChecklistItem :=
  match checklist with
  | none => []
  | some l =>
    let sorted := l.mergeSort (fun a b => decide (a.index ≤ b.index))
    sorted.filter (fun item => REQUIRED_CHECKLIST_TITLES.contains item.title)

/-- The call `normalizeChecklist(checklist)` observed together with the
argument array after the call: the code sorts the spread copy
`[...checklist]`, so the caller's array is returned unchanged. -/
def normalizeChecklistCall (checklist : Option (List ChecklistItem)) :
    List ChecklistItem × Option (List ChecklistItem) :=
  (normalizeChecklist checklist, checklist)

/-- Embedding of the rendered-checklist summary count (app.js lines
1260-1262): the passed count over the normalized checklist of
`runtimeState?.checklist || []`. -/
def checklistSummaryPassed (runtimeState : Option RuntimeDoc) : ℕ :=
  let checklist := normalizeChecklist
    (some ((runtimeState.bind (fun r => r.checklist)).getD []))
  (checklist.filter (fun item => item.passed)).length

/-- C10: `normalizeChecklist` returns exactly the items of its input whose
title is in the fixed required-title allow-list (as a permutation of the
title filter of the input), sorted ascending by numeric index, it returns
`[]` on non-array input, and the call leaves the input array unchanged. -/
theorem normalizeChecklist_spec (checklist : Option (List ChecklistItem)) :
    ((normalizeChecklistCall checklist).2 = checklist) ∧
    normalizeChecklist none = [] ∧
    ∀ l, ((normalizeChecklist (some l)).Perm
        (l.filter (fun item => REQUIRED_CHECKLIST_TITLES.contains item.title)) ∧
      List.Sorted (fun a b => a.index ≤ b.index) (normalizeChecklist (some l))) := by
  refine ⟨rfl, rfl, fun l => ⟨?_, ?_⟩⟩
  · simp only [normalizeChecklist]
    exact (List.mergeSort_perm l (fun a b => decide (a.index ≤ b.index))).filter _
  · simp only [normalizeChecklist, List.Sorted]
    have hs := @List.sorted_mergeSort ChecklistItem
      (fun a b => decide (a.index ≤ b.index))
      (fun a b c hab hbc => by
        simp only [decide_eq_true_iff] at hab hbc ⊢
        exact le_trans hab hbc)
      (fun a b => by
        simp only [Bool.or_eq_true, decide_eq_true_iff]
        exact le_total a.index b.index)
      l
    have hf := hs.filter
      (fun item => REQUIRED_CHECKLIST_TITLES.contains item.title)
    exact hf.imp (fun hab => decide_eq_true_iff.mp hab)

/-- Runtime document whose checklist holds a single passed item with the
unknown title "X". -/
def cexRuntimeX : RuntimeDoc :=
  ⟨some [⟨0, "X", true, none, none⟩], none⟩

/-- Runtime document with an empty checklist. -/
def cexRuntimeEmpty : RuntimeDoc :=
  ⟨some [], none⟩

/-- C7 counterexample: the passed unknown-title item "X" is excluded from
the rendered checklist and from the rendered summary count, yet
`checklistPassedCount` — the count feeding the run-comparison pass delta —
still counts it, so the pass delta against an empty baseline is 1, not the
0 the claim requires. -/
theorem checklist_passed_count_counterexample :
    normalizeChecklist (some [⟨0, "X", true, none, none⟩]) = [] ∧
    checklistSummaryPassed (some cexRuntimeX) = 0 ∧
    checklistPassedCount (some cexRuntimeX) = 1 ∧
    checklistPassedCount (some cexRuntimeEmpty) = 0 ∧
    passDelta (some cexRuntimeX) (some cexRuntimeEmpty) = 1 ∧
    passDelta (some cexRuntimeX) (some cexRuntimeEmpty) ≠ 0 := by
  have hnorm : normalizeChecklist
      (some [⟨0, "X", true, none, none⟩]) = [] := by
    simp [normalizeChecklist, REQUIRED_CHECKLIST_TITLES]
  refine ⟨hnorm, ?_, rfl, rfl, rfl, by decide⟩
  simp only [checklistSummaryPassed, cexRuntimeX, Option.bind, Option.getD, hnorm]
  rfl

/-- C7 amended: an unknown-title checklist item is excluded from the
rendered checklist and from the summary passed count computed over the
normalized checklist, but `checklistPassedCount` — used for the
run-comparison pass delta — counts every item with truthy `passed`
regardless of title, so a passed unknown-title item raises that count (and
hence the pass delta) by one. -/
theorem checklist_passed_count_amended (l : List ChecklistItem)
    (item : ChecklistItem)
    (htitle : item.title ∉ REQUIRED_CHECKLIST_TITLES)
    (hpassed : item.passed = true) :
    item ∉ normalizeChecklist (some (l ++ [item])) ∧
    checklistSummaryPassed (some ⟨some (l ++ [item]), none⟩) =
      checklistSummaryPassed (some ⟨some l, none⟩) ∧
    checklistPassedCount (some ⟨some (l ++ [item]), none⟩) =
      checklistPassedCount (some ⟨some l, none⟩) + 1 ∧
    passDelta (some ⟨some (l ++ [item]), none⟩) (some ⟨some l, none⟩) = 1 := by
  have hsummary : ∀ l2 : List ChecklistItem,
      checklistSummaryPassed (some ⟨some l2, none⟩) =
        l2.countP (fun it =>
          it.passed && REQUIRED_CHECKLIST_TITLES.contains it.title) := by
    intro l2
    simp only [checklistSummaryPassed, Option.bind, Option.getD,
      normalizeChecklist, ← List.countP_eq_length_filter, List.countP_filter]
    exact (List.mergeSort_perm l2 _).countP_eq _
  have hcount : ∀ l2 : List ChecklistItem,
      checklistPassedCount (some ⟨some l2, none⟩) =
        l2.countP (fun it => it.passed) := by
    intro l2
    simp only [checklistPassedCount, ← List.countP_eq_length_filter]
  refine ⟨?_, ?_, ?_, ?_⟩
  · intro hmem
    simp only [normalizeChecklist, List.mem_filter] at hmem
    exact htitle (by simpa using hmem.2)
  · rw [hsummary, hsummary, List.countP_append]
    have : (item.passed && REQUIRED_CHECKLIST_TITLES.contains item.title) = false := by
      cases hc : REQUIRED_CHECKLIST_TITLES.contains item.title with
      | true => exact absurd (by simpa using hc) htitle
      | false => rw [Bool.and_false]
    simp only [List.countP_cons, List.countP_nil, this]
    simp
  · rw [hcount, hcount, List.countP_append]
    simp [List.countP_cons, hpassed]
  · have h2 : checklistPassedCount (some ⟨some (l ++ [item]), none⟩) =
        checklistPassedCount (some ⟨some l, none⟩) + 1 := by
      rw [hcount, hcount, List.countP_append]
      simp [List.countP_cons, hpassed]
    simp only [passDelta, h2]
    push_cast
    ring

/-- Witness for the amended C7 at a concrete checklist: one allowed passed
item plus the passed unknown-title item "X". -/
theorem checklist_passed_count_amended_witness :
    (⟨1, "X", true, none, none⟩ : ChecklistItem) ∉ normalizeChecklist
      (some ([⟨0, "Check trained checkpoints", true, none, none⟩] ++
        [⟨1, "X", true, none, none⟩])) ∧
    checklistSummaryPassed (some ⟨some
        ([⟨0, "Check trained checkpoints", true, none, none⟩] ++
          [⟨1, "X", true, none, none⟩]), none⟩) =
      checklistSummaryPassed (some ⟨some
        [⟨0, "Check trained checkpoints", true, none, none⟩], none⟩) ∧
    checklistPassedCount (some ⟨some
        ([⟨0, "Check trained checkpoints", true, none, none⟩] ++
          [⟨1, "X", true, none, none⟩]), none⟩) =
      checklistPassedCount (some ⟨some
        [⟨0, "Check trained checkpoints", true, none, none⟩], none⟩) + 1 ∧
    passDelta (some ⟨some
        ([⟨0, "Check trained checkpoints", true, none, none⟩] ++
          [⟨1, "X", true, none, none⟩]), none⟩)
      (some ⟨some [⟨0, "Check trained checkpoints", true, none, none⟩], none⟩) = 1 :=
  checklist_passed_count_amended
    [⟨0, "Check trained checkpoints", true, none, none⟩]
    ⟨1, "X", true, none, none⟩ (by decide) rfl

/-- Witness for the amended C8 at a concrete state: pointer 1 holds a
node-drag session on n1 when pointer 2 grabs n2. -/
theorem second_node_drag_replaces_witness :
    (∃ offX offY,
      (step { twoNodeState with nodeDrag := some ⟨1, "n1", 0, 0⟩ }
          (PEvent.pointerdown 2 200 200 true (some "n2"))).nodeDrag =
        some ⟨2, "n2", offX, offY⟩) ∧
    (pointermoveStep
        (step { twoNodeState with nodeDrag := some ⟨1, "n1", 0, 0⟩ }
          (PEvent.pointerdown 2 200 200 true (some "n2"))) 1 150 130).nodes =
      (step { twoNodeState with nodeDrag := some ⟨1, "n1", 0, 0⟩ }
          (PEvent.pointerdown 2 200 200 true (some "n2"))).nodes ∧
    (endPointerAction
        (step { twoNodeState with nodeDrag := some ⟨1, "n1", 0, 0⟩ }
          (PEvent.pointerdown 2 200 200 true (some "n2"))) 1).nodeDrag =
      (step { twoNodeState with nodeDrag := some ⟨1, "n1", 0, 0⟩ }
          (PEvent.pointerdown 2 200 200 true (some "n2"))).nodeDrag :=
  second_node_drag_replaces
    { twoNodeState with nodeDrag := some ⟨1, "n1", 0, 0⟩ }
    ⟨1, "n1", 0, 0⟩ 2 "n2" ⟨100, 100⟩ 200 200 150 130
    rfl rfl (by decide) (by decide)
